import Mathlib

/-!
Verification of the producer/consumer example (`src/main.c`).

The program is an AVR firmware with a 128-slot ring buffer of RGB triplets
(`queue`), two `uint8_t` cursors `head` and `tail`, an `enable_consumer`
flag, an adaptive period `consume_every` plus an external additive
`consume_every_modifier`, and a timer-overflow interrupt handler that
drains the buffer at the configured period.

We shallowly embed the globals as a state record `Sys`, the queue
predicates and operations as pure functions on `Sys`, the interrupt
handler body as a step function `isrTick`, and the producer's triple
nested do-while loop as an odometer step `nextRGB`.  All `uint8_t`
quantities are modelled as `Nat` with explicit `% 256` (and `% 128` for
the cursor arithmetic, matching `% NELEMS(queue)`) exactly where the C
performs a modulo or where 8-bit wraparound occurs.
-/

/-- `struct _RGB { uint8_t r; uint8_t g; uint8_t b; }` (main.c:46-51).
Fields are modelled as `Nat`; each operation that increments a field
applies `% 256`, matching `uint8_t` wraparound. -/
structure RGB where
  r : Nat
  g : Nat
  b : Nat
deriving DecidableEq, Repr

/-- `NELEMS(queue)`: the queue holds 128 elements (main.c:54). -/
def NELEMSqueue : Nat := 128

/-- The mutable globals of main.c, gathered into one record:
`queue` (main.c:54), `head` (58), `tail` (62), `enable_consumer` (68),
`consume_every_modifier` (71), and the two `static` locals of the ISR,
`cycle` (159) and `consume_every` (168).  The `uint8_t` scalars are
`Nat`s; cursor updates apply `% 128` as the C code does, so `head`,
`tail` stay below 128 once they start there. -/
structure Sys where
  queue : Nat → RGB
  head : Nat
  tail : Nat
  enable_consumer : Nat
  consume_every_modifier : Nat
  cycle : Nat
  consume_every : Nat

/-- `empty()` (main.c:74-76): returns 1 if `head == tail`, 0 otherwise. -/
def empty (s : Sys) : Nat :=
  if s.head = s.tail then 1 else 0

/-- `full()` (main.c:79-81): returns 1 if `head == (tail + 1) % 128`,
0 otherwise. -/
def full (s : Sys) : Nat :=
  if s.head = (s.tail + 1) % NELEMSqueue then 1 else 0

/-- `enqueue()` (main.c:85-88): `queue[tail] = *rgb; tail = (tail + 1) % 128`. -/
def enqueue (s : Sys) (rgb : RGB) : Sys :=
  { s with
    queue := fun i => if i = s.tail then rgb else s.queue i
    tail := (s.tail + 1) % NELEMSqueue }

/-- `dequeue()` (main.c:92-95): `*rgb = queue[head]; head = (head + 1) % 128`.
Returns the new state together with the record read out. -/
def dequeue (s : Sys) : Sys × RGB :=
  ({ s with head := (s.head + 1) % NELEMSqueue }, s.queue s.head)

/-- The body of `ISR(TIMER0_OVF_vect)` (main.c:157-203).
The C condition is `enable_consumer && ++cycle >= (consume_every +
consume_every_modifier)`: `&&` short-circuits, so `cycle` is only
incremented when `enable_consumer` is nonzero; `++cycle` wraps modulo 256
(`uint8_t`) while the right-hand sum is computed after integer promotion,
hence exactly (no wrap, values up to 510).  When due: `cycle = 0`, then
either a dequeue (buffer not empty) or the underrun path
`consume_every++; enable_consumer = 0` (wrapping modulo 256).
The returned `Option RGB` is the record dequeued this tick, if any. -/
def isrTick (s : Sys) : Sys × Option RGB :=
  if s.enable_consumer ≠ 0 then
    let cycle1 := (s.cycle + 1) % 256
    if s.consume_every + s.consume_every_modifier ≤ cycle1 then
      let s0 : Sys := { s with cycle := 0 }
      if empty s0 = 0 then
        let d := dequeue s0
        (d.1, some d.2)
      else
        ({ s0 with
            consume_every := (s0.consume_every + 1) % 256
            enable_consumer := 0 }, none)
    else
      ({ s with cycle := cycle1 }, none)
  else
    (s, none)

/-- A run of `n` consecutive timer ticks: the final state and the list
of per-tick dequeue results (in tick order, one entry per tick). -/
def isrRun : Nat → Sys → Sys × List (Option RGB)
  | 0, s => (s, [])
  | n + 1, s =>
    let t := isrTick s
    let r := isrRun n t.1
    (r.1, t.2 :: r.2)

/-- One step of the producer's value odometer: the effect on `rgb` of
the loop back-edges `while (++rgb.b != 0)`, `while (++rgb.g != 0)`,
`while (++rgb.r != 0)` (main.c:265-267) after one `enqueue`, including
the restart of the outer `for (;;)` with `rgb = { 0 }` when all three
wrap (main.c:221-223).  Each `++` is `uint8_t`, hence modulo 256. -/
def nextRGB (c : RGB) : RGB :=
  let b1 := (c.b + 1) % 256
  if b1 ≠ 0 then ⟨c.r, c.g, b1⟩
  else
    let g1 := (c.g + 1) % 256
    if g1 ≠ 0 then ⟨c.r, g1, b1⟩
    else ⟨(c.r + 1) % 256, g1, b1⟩

/-- The value the producer's `k`-th `enqueue` call passes (main.c:234),
starting from `RGB rgb = { 0 }` (main.c:223): iterated odometer steps. -/
def produce : Nat → RGB
  | 0 => ⟨0, 0, 0⟩
  | n + 1 => nextRGB (produce n)

/-- The initial values of the globals at reset: `head = tail = 0`,
`enable_consumer = 0`, `consume_every_modifier = 0`, `cycle = 0`,
`consume_every = 1`; the queue array is zero-initialized (C statics). -/
def initSys : Sys :=
  { queue := fun _ => ⟨0, 0, 0⟩
    head := 0
    tail := 0
    enable_consumer := 0
    consume_every_modifier := 0
    cycle := 0
    consume_every := 1 }

/-- A queue operation in a client sequence: an `enqueue` of a record or
a `dequeue`. -/
inductive Op where
  | enq (rgb : RGB) : Op
  | deq : Op
deriving DecidableEq, Repr

/-- The records passed to `enqueue` by a sequence of operations, in order. -/
def enqList : List Op → List RGB
  | [] => []
  | Op.enq r :: rest => r :: enqList rest
  | Op.deq :: rest => enqList rest

/-- The sequence respects the preconditions: each `enqueue` is invoked
only when `full()` returns 0, each `dequeue` only when `empty()`
returns 0 (main.c:83-84, 90-91). -/
def ValidOps : Sys → List Op → Bool
  | _, [] => true
  | s, Op.enq r :: rest => (full s == 0) && ValidOps (enqueue s r) rest
  | s, Op.deq :: rest => (empty s == 0) && ValidOps (dequeue s).1 rest

/-- Run a sequence of operations; return the final state and the list of
records returned by the `dequeue` calls, in order. -/
def runOps : Sys → List Op → Sys × List RGB
  | s, [] => (s, [])
  | s, Op.enq r :: rest => runOps (enqueue s r) rest
  | s, Op.deq :: rest =>
    let d := dequeue s
    let r := runOps d.1 rest
    (r.1, d.2 :: r.2)

/-- The abstract content of the ring buffer: the records from `head`
(inclusive) to `tail` (exclusive), in dequeue order.  Its length is
`(tail + 128 - head) % 128`, the number of occupied slots. -/
def contents (s : Sys) : List RGB :=
  (List.range ((s.tail + NELEMSqueue - s.head) % NELEMSqueue)).map
    (fun i => s.queue ((s.head + i) % NELEMSqueue))

/-! ### Ring buffer abstraction lemmas -/

lemma contents_initSys : contents initSys = [] := rfl

lemma full_eq_zero_iff (s : Sys) :
    full s = 0 ↔ ¬ s.head = (s.tail + 1) % 128 := by
  unfold full NELEMSqueue
  split <;> simp_all

lemma empty_eq_zero_iff (s : Sys) : empty s = 0 ↔ ¬ s.head = s.tail := by
  unfold empty
  split <;> simp_all

lemma enqueue_contents (s : Sys) (r : RGB) (hh : s.head < 128)
    (ht : s.tail < 128) (hf : full s = 0) :
    contents (enqueue s r) = contents s ++ [r] := by
  have hf' : ¬ s.head = (s.tail + 1) % 128 := (full_eq_zero_iff s).mp hf
  unfold contents enqueue NELEMSqueue
  simp only
  have hlen : ((s.tail + 1) % 128 + 128 - s.head) % 128
      = (s.tail + 128 - s.head) % 128 + 1 := by omega
  rw [hlen, List.range_succ, List.map_append]
  have hmem : (s.head + (s.tail + 128 - s.head) % 128) % 128 = s.tail := by
    omega
  congr 1
  · apply List.map_congr_left
    intro i hi
    have hi' : i < (s.tail + 128 - s.head) % 128 := List.mem_range.mp hi
    have hne : ¬ (s.head + i) % 128 = s.tail := by omega
    simp [hne]
  · simp [hmem]

lemma dequeue_contents (s : Sys) (hh : s.head < 128) (ht : s.tail < 128)
    (he : empty s = 0) :
    contents s = (dequeue s).2 :: contents (dequeue s).1 := by
  have he' : ¬ s.head = s.tail := (empty_eq_zero_iff s).mp he
  unfold contents dequeue NELEMSqueue
  simp only
  have hlen : (s.tail + 128 - s.head) % 128
      = (s.tail + 128 - (s.head + 1) % 128) % 128 + 1 := by omega
  rw [hlen, List.range_succ_eq_map, List.map_cons, List.map_map]
  congr 1
  · have : (s.head + 0) % 128 = s.head := by omega
    rw [this]
  · apply List.map_congr_left
    intro i _
    simp only [Function.comp_apply]
    congr 1
    omega

lemma runOps_spec (ops : List Op) : ∀ s : Sys, s.head < 128 → s.tail < 128 →
    ValidOps s ops = true →
    (runOps s ops).2 ++ contents (runOps s ops).1 = contents s ++ enqList ops
    ∧ (runOps s ops).1.head < 128 ∧ (runOps s ops).1.tail < 128 := by
  induction ops with
  | nil =>
    intro s hh ht _
    exact ⟨by simp [runOps, enqList], hh, ht⟩
  | cons op rest ih =>
    intro s hh ht hv
    cases op with
    | enq r =>
      rw [ValidOps, Bool.and_eq_true, beq_iff_eq] at hv
      have hh' : (enqueue s r).head < 128 := hh
      have ht' : (enqueue s r).tail < 128 := by
        unfold enqueue NELEMSqueue
        simp only
        omega
      obtain ⟨ihEq, ihH, ihT⟩ := ih (enqueue s r) hh' ht' hv.2
      refine ⟨?_, ihH, ihT⟩
      simp only [runOps, enqList]
      rw [ihEq, enqueue_contents s r hh ht hv.1]
      simp
    | deq =>
      rw [ValidOps, Bool.and_eq_true, beq_iff_eq] at hv
      have hh' : (dequeue s).1.head < 128 := by
        unfold dequeue NELEMSqueue
        simp only
        omega
      have ht' : (dequeue s).1.tail < 128 := ht
      obtain ⟨ihEq, ihH, ihT⟩ := ih (dequeue s).1 hh' ht' hv.2
      refine ⟨?_, ihH, ihT⟩
      simp only [runOps, enqList]
      rw [List.cons_append, ihEq, ← List.cons_append,
        ← dequeue_contents s hh ht hv.1]

/-- Claim C1: for every sequence of enqueue and dequeue operations in
which each enqueue is invoked only when `full()` returns 0 and each
dequeue only when `empty()` returns 0, starting from the initial (empty)
state, the sequence of records returned by `dequeue` equals the sequence
of records passed to `enqueue`, in the same order, with no record lost,
duplicated, or reordered: the dequeued sequence is the prefix of the
enqueued sequence of its length, and the remaining enqueued records are
exactly the final buffer contents, in order. -/
theorem c1_fifo (ops : List Op) (hv : ValidOps initSys ops = true) :
    (runOps initSys ops).2 ++ contents (runOps initSys ops).1 = enqList ops
    ∧ (runOps initSys ops).2
      = (enqList ops).take (runOps initSys ops).2.length := by
  obtain ⟨hEq, -, -⟩ := runOps_spec ops initSys (by decide) (by decide) hv
  rw [contents_initSys, List.nil_append] at hEq
  refine ⟨hEq, ?_⟩
  rw [← hEq, List.take_left]

/-- Witness for C1 at a concrete operation sequence: two enqueues
followed by two dequeues, returning the two records in FIFO order. -/
theorem c1_fifo_witness :
    ValidOps initSys
        [Op.enq ⟨1, 2, 3⟩, Op.enq ⟨4, 5, 6⟩, Op.deq, Op.deq] = true
    ∧ ((runOps initSys
          [Op.enq ⟨1, 2, 3⟩, Op.enq ⟨4, 5, 6⟩, Op.deq, Op.deq]).2 ++
        contents (runOps initSys
          [Op.enq ⟨1, 2, 3⟩, Op.enq ⟨4, 5, 6⟩, Op.deq, Op.deq]).1
        = enqList [Op.enq ⟨1, 2, 3⟩, Op.enq ⟨4, 5, 6⟩, Op.deq, Op.deq]
      ∧ (runOps initSys
          [Op.enq ⟨1, 2, 3⟩, Op.enq ⟨4, 5, 6⟩, Op.deq, Op.deq]).2
        = (enqList [Op.enq ⟨1, 2, 3⟩, Op.enq ⟨4, 5, 6⟩, Op.deq, Op.deq]).take
            (runOps initSys
              [Op.enq ⟨1, 2, 3⟩, Op.enq ⟨4, 5, 6⟩, Op.deq, Op.deq]).2.length) :=
  ⟨by decide, c1_fifo _ (by decide)⟩

/-! ### Shapes of a single timer tick, one lemma per branch of the ISR -/

lemma isrTick_disabled (s : Sys) (h : s.enable_consumer = 0) :
    isrTick s = (s, none) := by
  unfold isrTick
  simp [h]

lemma isrTick_wait (s : Sys) (hen : s.enable_consumer ≠ 0)
    (hlt : (s.cycle + 1) % 256 < s.consume_every + s.consume_every_modifier) :
    isrTick s = ({ s with cycle := (s.cycle + 1) % 256 }, none) := by
  unfold isrTick
  rw [if_pos hen]
  simp only
  rw [if_neg (by omega)]

lemma isrTick_dequeue (s : Sys) (hen : s.enable_consumer ≠ 0)
    (hdue : s.consume_every + s.consume_every_modifier ≤ (s.cycle + 1) % 256)
    (hne : empty s = 0) :
    isrTick s = ({ s with
      cycle := 0
      head := (s.head + 1) % 128 },
      some (s.queue s.head)) := by
  unfold isrTick dequeue NELEMSqueue
  rw [if_pos hen]
  simp only
  rw [if_pos hdue, if_pos (by simpa [empty] using hne)]

lemma isrTick_underrun (s : Sys) (hen : s.enable_consumer ≠ 0)
    (hdue : s.consume_every + s.consume_every_modifier ≤ (s.cycle + 1) % 256)
    (hem : empty s = 1) :
    isrTick s = ({ s with
      cycle := 0
      consume_every := (s.consume_every + 1) % 256
      enable_consumer := 0 }, none) := by
  unfold isrTick
  rw [if_pos hen]
  simp only
  rw [if_pos hdue, if_neg (by simp [empty] at hem ⊢; omega)]

/-- While the incremented cycle counter stays strictly below the
threshold, a run of `k` ticks only advances `cycle` and produces no
dequeue. -/
lemma isrRun_wait (T : Nat) (hT : T ≤ 255) : ∀ (k : Nat) (s : Sys),
    s.enable_consumer ≠ 0 →
    s.consume_every + s.consume_every_modifier = T →
    s.cycle + k < T →
    isrRun k s = ({ s with cycle := s.cycle + k }, List.replicate k none) := by
  intro k
  induction k with
  | zero => intro s _ _ _; rfl
  | succ n ih =>
    intro s hen hsum hlt
    have hc : (s.cycle + 1) % 256 = s.cycle + 1 := Nat.mod_eq_of_lt (by omega)
    have hstep : isrTick s = ({ s with cycle := s.cycle + 1 }, none) := by
      rw [isrTick_wait s hen (by omega), hc]
    simp only [isrRun, hstep]
    rw [ih { s with cycle := s.cycle + 1 } hen hsum
      (by show s.cycle + 1 + n < T; omega)]
    have harith : s.cycle + 1 + n = s.cycle + (n + 1) := by omega
    show ({ s with cycle := s.cycle + 1 + n }, _) = _
    rw [harith]
    rfl

/-- Claim C7: in every state in which `enable_consumer` is 0, a timer
tick leaves all controller and buffer state unchanged — `cycle` is not
incremented (the `&&` short-circuits before `++cycle`), `consume_every`
is unchanged, `head` is unchanged, and no dequeue occurs. -/
theorem c7_disabled_frame (s : Sys) (h : s.enable_consumer = 0) :
    isrTick s = (s, none) :=
  isrTick_disabled s h

/-- Witness for C7 at a concrete state: disabled consumer, one tick,
nothing changes. -/
theorem c7_disabled_frame_witness :
    ({ queue := fun _ => ⟨9, 9, 9⟩, head := 3, tail := 7
       enable_consumer := 0, consume_every_modifier := 2
       cycle := 5, consume_every := 4 } : Sys).enable_consumer = 0
    ∧ isrTick { queue := fun _ => ⟨9, 9, 9⟩, head := 3, tail := 7
                enable_consumer := 0, consume_every_modifier := 2
                cycle := 5, consume_every := 4 }
      = ({ queue := fun _ => ⟨9, 9, 9⟩, head := 3, tail := 7
           enable_consumer := 0, consume_every_modifier := 2
           cycle := 5, consume_every := 4 }, none) :=
  ⟨rfl, c7_disabled_frame _ rfl⟩

/-- If the exact-arithmetic threshold `consume_every +
consume_every_modifier` is at least 256, no tick ever satisfies the
drain condition (`++cycle` wraps modulo 256, so the promoted comparison
never holds): every tick output is `none` and every field except
`cycle` is unchanged. -/
lemma isrRun_never_due : ∀ (n : Nat) (s : Sys),
    256 ≤ s.consume_every + s.consume_every_modifier →
    (isrRun n s).2 = List.replicate n none
    ∧ (isrRun n s).1.queue = s.queue
    ∧ (isrRun n s).1.head = s.head
    ∧ (isrRun n s).1.tail = s.tail
    ∧ (isrRun n s).1.enable_consumer = s.enable_consumer
    ∧ (isrRun n s).1.consume_every_modifier = s.consume_every_modifier
    ∧ (isrRun n s).1.consume_every = s.consume_every := by
  intro n
  induction n with
  | zero => intro s _; exact ⟨rfl, rfl, rfl, rfl, rfl, rfl, rfl⟩
  | succ m ih =>
    intro s hge
    by_cases hen : s.enable_consumer = 0
    · have hstep := isrTick_disabled s hen
      simp only [isrRun, hstep]
      obtain ⟨h1, h2⟩ := ih s hge
      exact ⟨by simp [h1, List.replicate_succ], h2⟩
    · have hstep := isrTick_wait s hen (by omega)
      simp only [isrRun, hstep]
      obtain ⟨h1, h2⟩ := ih { s with cycle := (s.cycle + 1) % 256 } hge
      exact ⟨by simp [h1, List.replicate_succ], h2⟩

/-- Claim C10: whenever `consume_every + consume_every_modifier`
(computed exactly, after C integer promotion) exceeds 255, the 8-bit
`cycle` counter can never reach the threshold, so no dequeue occurs on
any subsequent tick while that state persists (and it does persist:
`head`, `consume_every`, `consume_every_modifier` and `enable_consumer`
are all unchanged by such ticks; only `cycle` keeps wrapping). -/
theorem c10_threshold_unreachable (s : Sys)
    (hgt : 255 < s.consume_every + s.consume_every_modifier) (n : Nat) :
    (isrRun n s).2 = List.replicate n none
    ∧ (isrRun n s).1.head = s.head
    ∧ (isrRun n s).1.enable_consumer = s.enable_consumer
    ∧ (isrRun n s).1.consume_every_modifier = s.consume_every_modifier
    ∧ (isrRun n s).1.consume_every = s.consume_every := by
  obtain ⟨h1, _, h3, h4, h5, h6, h7⟩ := isrRun_never_due n s (by omega)
  exact ⟨h1, h3, h5, h6, h7⟩

/-- A concrete state with exact threshold 45 + 255 = 300 > 255. -/
def overflowState : Sys :=
  { queue := fun _ => ⟨0, 0, 0⟩
    head := 2
    tail := 9
    enable_consumer := 1
    consume_every_modifier := 255
    cycle := 0
    consume_every := 45 }

/-- Witness for C10 at `overflowState` (threshold 300, run of 400
ticks): all outputs are `none` and the controller state persists. -/
theorem c10_threshold_unreachable_witness :
    255 < overflowState.consume_every + overflowState.consume_every_modifier
    ∧ ((isrRun 400 overflowState).2 = List.replicate 400 none
        ∧ (isrRun 400 overflowState).1.head = overflowState.head
        ∧ (isrRun 400 overflowState).1.enable_consumer
            = overflowState.enable_consumer
        ∧ (isrRun 400 overflowState).1.consume_every_modifier
            = overflowState.consume_every_modifier
        ∧ (isrRun 400 overflowState).1.consume_every
            = overflowState.consume_every) :=
  ⟨by decide, c10_threshold_unreachable overflowState (by decide) 400⟩

/-- Claim C2 (amended: the exact threshold `consume_every +
consume_every_modifier` must lie in `[1, 255]`; above 255 the 8-bit
cycle counter never reaches it, see the counterexample): from a state
with `enable_consumer` nonzero, a non-empty buffer and `cycle = 0`, in a
run of consecutive timer ticks no dequeue occurs on any tick numbered
strictly below the threshold, and on the tick numbered exactly the
threshold exactly one dequeue occurs (returning the record at `head`)
and `cycle` is reset to 0. -/
theorem c2_drain_at_period (s : Sys) (hen : s.enable_consumer ≠ 0)
    (hne : empty s = 0) (hc0 : s.cycle = 0)
    (hT1 : 1 ≤ s.consume_every + s.consume_every_modifier)
    (hT2 : s.consume_every + s.consume_every_modifier ≤ 255) :
    (isrRun (s.consume_every + s.consume_every_modifier - 1) s).2
      = List.replicate (s.consume_every + s.consume_every_modifier - 1) none
    ∧ isrTick (isrRun (s.consume_every + s.consume_every_modifier - 1) s).1
      = ({ s with
            cycle := 0
            head := (s.head + 1) % 128 }, some (s.queue s.head)) := by
  have hw := isrRun_wait (s.consume_every + s.consume_every_modifier) hT2
    (s.consume_every + s.consume_every_modifier - 1) s hen rfl (by omega)
  constructor
  · rw [hw]
  · rw [hw]
    dsimp only
    rw [isrTick_dequeue
      { s with cycle := s.cycle + (s.consume_every
          + s.consume_every_modifier - 1) }
      hen
      (by
        show s.consume_every + s.consume_every_modifier
          ≤ (s.cycle + (s.consume_every + s.consume_every_modifier - 1) + 1)
              % 256
        omega)
      hne]

/-- A concrete state for the C2 witness: threshold 2 + 1 = 3, non-empty
buffer holding `⟨7, 8, 9⟩` at `head = 5`. -/
def drainState : Sys :=
  { queue := fun _ => ⟨7, 8, 9⟩
    head := 5
    tail := 6
    enable_consumer := 1
    consume_every_modifier := 1
    cycle := 0
    consume_every := 2 }

/-- Witness for C2 at `drainState`: ticks 1 and 2 dequeue nothing; tick 3
dequeues `⟨7, 8, 9⟩`, advances `head` to 6 and resets `cycle` to 0. -/
theorem c2_drain_at_period_witness :
    (drainState.enable_consumer ≠ 0 ∧ empty drainState = 0
      ∧ drainState.cycle = 0
      ∧ 1 ≤ drainState.consume_every + drainState.consume_every_modifier
      ∧ drainState.consume_every + drainState.consume_every_modifier ≤ 255)
    ∧ ((isrRun (drainState.consume_every + drainState.consume_every_modifier
          - 1) drainState).2
        = List.replicate (drainState.consume_every
            + drainState.consume_every_modifier - 1) none
      ∧ isrTick (isrRun (drainState.consume_every
            + drainState.consume_every_modifier - 1) drainState).1
        = ({ drainState with
              cycle := 0
              head := (drainState.head + 1) % 128 },
            some (drainState.queue drainState.head))) :=
  ⟨⟨by decide, by decide, rfl, by decide, by decide⟩,
    c2_drain_at_period drainState (by decide) (by decide) rfl (by decide)
      (by decide)⟩

/-- A concrete state refuting C2 as stated: exact threshold
`consume_every + consume_every_modifier = 1 + 255 = 256` (the external
modifier is at its `uint8_t` maximum), non-empty buffer, `cycle = 0`. -/
def overThresholdState : Sys :=
  { queue := fun _ => ⟨0, 0, 0⟩
    head := 0
    tail := 1
    enable_consumer := 1
    consume_every_modifier := 255
    cycle := 0
    consume_every := 1 }

/-- Counterexample to C2 as stated: at `overThresholdState` every
hypothesis of the claim holds, yet on the tick numbered exactly
`consume_every + consume_every_modifier = 256` no dequeue occurs (the
8-bit `++cycle` wraps to 0 on that tick, below the promoted threshold),
contradicting "on the tick numbered exactly `consume_every +
consume_every_modifier` exactly one dequeue occurs". -/
theorem c2_drain_at_period_counterexample :
    overThresholdState.enable_consumer ≠ 0
    ∧ empty overThresholdState = 0
    ∧ overThresholdState.cycle = 0
    ∧ (isrTick (isrRun (overThresholdState.consume_every
          + overThresholdState.consume_every_modifier - 1)
          overThresholdState).1).2 = none := by
  refine ⟨by decide, by decide, rfl, ?_⟩
  show (isrTick (isrRun 255 overThresholdState).1).2 = none
  obtain ⟨-, -, -, -, hen, hmod, hce⟩ :=
    isrRun_never_due 255 overThresholdState (by decide)
  rw [isrTick_wait _ (by rw [hen]; decide)
    (by
      rw [hce, hmod]
      show ((isrRun 255 overThresholdState).1.cycle + 1) % 256 < 1 + 255
      omega)]

/-- Claim C3 (amended: `consume_every` is a `uint8_t`, so the underrun
increment is modulo 256 — it is an increment by exactly 1 whenever
`consume_every < 255`, and wraps from 255 to 0 otherwise, see the
counterexample): on every tick on which a drain is due (`enable_consumer`
nonzero and the incremented cycle reaches the threshold) and the buffer
is empty, the handler sets `consume_every` to `(consume_every + 1) % 256`
— an increment by exactly 1 when `consume_every < 255` — sets
`enable_consumer` to 0, and performs no dequeue (`head` unchanged). -/
theorem c3_underrun_adapts (s : Sys) (hen : s.enable_consumer ≠ 0)
    (hdue : s.consume_every + s.consume_every_modifier ≤ (s.cycle + 1) % 256)
    (hem : empty s = 1) :
    (isrTick s).1.consume_every = (s.consume_every + 1) % 256
    ∧ (s.consume_every < 255
        → (isrTick s).1.consume_every = s.consume_every + 1)
    ∧ (isrTick s).1.enable_consumer = 0
    ∧ (isrTick s).1.head = s.head
    ∧ (isrTick s).2 = none := by
  rw [isrTick_underrun s hen hdue hem]
  refine ⟨rfl, ?_, rfl, rfl, rfl⟩
  intro hlt
  show (s.consume_every + 1) % 256 = s.consume_every + 1
  omega

/-- A concrete state for the C3 witness: drain due (`cycle` becomes 3,
threshold 3), buffer empty, `consume_every = 3`. -/
def underrunState : Sys :=
  { queue := fun _ => ⟨1, 1, 1⟩
    head := 17
    tail := 17
    enable_consumer := 1
    consume_every_modifier := 0
    cycle := 2
    consume_every := 3 }

/-- Witness for C3 at `underrunState`: the tick raises `consume_every`
from 3 to 4, clears `enable_consumer`, leaves `head` at 17 and dequeues
nothing. -/
theorem c3_underrun_adapts_witness :
    (underrunState.enable_consumer ≠ 0
      ∧ underrunState.consume_every + underrunState.consume_every_modifier
          ≤ (underrunState.cycle + 1) % 256
      ∧ empty underrunState = 1)
    ∧ ((isrTick underrunState).1.consume_every
          = (underrunState.consume_every + 1) % 256
      ∧ (underrunState.consume_every < 255
          → (isrTick underrunState).1.consume_every
              = underrunState.consume_every + 1)
      ∧ (isrTick underrunState).1.enable_consumer = 0
      ∧ (isrTick underrunState).1.head = underrunState.head
      ∧ (isrTick underrunState).2 = none) :=
  ⟨⟨by decide, by decide, by decide⟩,
    c3_underrun_adapts underrunState (by decide) (by decide) (by decide)⟩

/-- A concrete state refuting C3 as stated: drain due, buffer empty,
`consume_every` at its `uint8_t` maximum 255. -/
def saturatedState : Sys :=
  { queue := fun _ => ⟨0, 0, 0⟩
    head := 0
    tail := 0
    enable_consumer := 1
    consume_every_modifier := 0
    cycle := 254
    consume_every := 255 }

/-- Counterexample to C3 as stated: at `saturatedState` a drain is due
and the buffer is empty, yet the tick does not increment `consume_every`
by exactly 1 — the `uint8_t` increment wraps 255 to 0. -/
theorem c3_underrun_adapts_counterexample :
    saturatedState.enable_consumer ≠ 0
    ∧ saturatedState.consume_every + saturatedState.consume_every_modifier
        ≤ (saturatedState.cycle + 1) % 256
    ∧ empty saturatedState = 1
    ∧ ¬ (isrTick saturatedState).1.consume_every
        = saturatedState.consume_every + 1
    ∧ (isrTick saturatedState).1.consume_every = 0 := by
  refine ⟨by decide, by decide, by decide, ?_, ?_⟩ <;> decide

/-- Claim C5 (amended: `consume_every` is a `uint8_t`, so it can only be
guaranteed not to decrease across a tick while it is below 255; an
underrun tick at `consume_every = 255` wraps it to 0, see the
counterexample): for every tick of a run in which
`consume_every_modifier` is not changed externally (`isrTick` itself
never writes it), if `consume_every < 255` before the tick then its
value after the tick is greater than or equal to its value before. -/
theorem c5_consume_every_monotone (s : Sys) (hlt : s.consume_every < 255) :
    s.consume_every ≤ (isrTick s).1.consume_every
    ∧ (isrTick s).1.consume_every_modifier = s.consume_every_modifier := by
  by_cases hen : s.enable_consumer = 0
  · rw [isrTick_disabled s hen]
    exact ⟨Nat.le_refl _, rfl⟩
  · by_cases hdue : s.consume_every + s.consume_every_modifier
        ≤ (s.cycle + 1) % 256
    · by_cases hem : s.head = s.tail
      · rw [isrTick_underrun s hen hdue (by simp [empty, hem])]
        refine ⟨?_, rfl⟩
        show s.consume_every ≤ (s.consume_every + 1) % 256
        omega
      · rw [isrTick_dequeue s hen hdue (by simp [empty, hem])]
        exact ⟨Nat.le_refl _, rfl⟩
    · rw [isrTick_wait s hen (by omega)]
      exact ⟨Nat.le_refl _, rfl⟩

/-- Witness for C5 at `underrunState` (`consume_every = 3 < 255`): after
the tick `consume_every` is 4 ≥ 3 and the modifier is untouched. -/
theorem c5_consume_every_monotone_witness :
    underrunState.consume_every < 255
    ∧ (underrunState.consume_every ≤ (isrTick underrunState).1.consume_every
      ∧ (isrTick underrunState).1.consume_every_modifier
          = underrunState.consume_every_modifier) :=
  ⟨by decide, c5_consume_every_monotone underrunState (by decide)⟩

/-- A concrete state refuting C5 as stated: an underrun tick with
`consume_every = 255` and an untouched modifier. -/
def wrapState : Sys :=
  { queue := fun _ => ⟨0, 0, 0⟩
    head := 40
    tail := 40
    enable_consumer := 1
    consume_every_modifier := 0
    cycle := 254
    consume_every := 255 }

/-- Counterexample to C5 as stated: at `wrapState` the tick (which does
not change `consume_every_modifier`) strictly decreases `consume_every`:
the `uint8_t` underrun increment wraps it from 255 to 0. -/
theorem c5_consume_every_monotone_counterexample :
    (isrTick wrapState).1.consume_every < wrapState.consume_every
    ∧ (isrTick wrapState).1.consume_every_modifier
        = wrapState.consume_every_modifier := by
  refine ⟨?_, ?_⟩ <;> decide

/-- `k` consecutive `enqueue` calls starting from the initial (empty)
state, enqueueing `vals 0, vals 1, ...` in order. -/
def enqRun (vals : Nat → RGB) : Nat → Sys
  | 0 => initSys
  | k + 1 => enqueue (enqRun vals k) (vals k)

lemma enqRun_cursors (vals : Nat → RGB) :
    ∀ k, k ≤ 128 → (enqRun vals k).head = 0 ∧ (enqRun vals k).tail = k % 128 := by
  intro k
  induction k with
  | zero => intro _; exact ⟨rfl, rfl⟩
  | succ m ih =>
    intro hk
    obtain ⟨ihh, iht⟩ := ih (by omega)
    refine ⟨ihh, ?_⟩
    show ((enqRun vals m).tail + 1) % 128 = (m + 1) % 128
    rw [iht]
    omega

/-- Claim C4: starting from the empty state `head == tail`, for the
buffer of capacity 128, exactly 127 consecutive enqueues can be
performed with `full()` returning 0 before each, and after the 127th
enqueue `full()` returns 1. -/
theorem c4_capacity (vals : Nat → RGB) :
    (∀ k, k < 127 → full (enqRun vals k) = 0)
    ∧ full (enqRun vals 127) = 1 := by
  constructor
  · intro k hk
    obtain ⟨hh, ht⟩ := enqRun_cursors vals k (by omega)
    unfold full NELEMSqueue
    rw [hh, ht, if_neg (by omega)]
  · obtain ⟨hh, ht⟩ := enqRun_cursors vals 127 (by omega)
    unfold full NELEMSqueue
    rw [hh, ht, if_pos (by omega)]

/-- Witness for C4 with the constant value sequence: `full()` is 0
before the 127th enqueue (index 126) and 1 after the 127th. -/
theorem c4_capacity_witness :
    (126 : Nat) < 127
    ∧ full (enqRun (fun _ => ⟨3, 1, 4⟩) 126) = 0
    ∧ full (enqRun (fun _ => ⟨3, 1, 4⟩) 127) = 1 :=
  ⟨by decide,
    (c4_capacity (fun _ => ⟨3, 1, 4⟩)).1 126 (by decide),
    (c4_capacity (fun _ => ⟨3, 1, 4⟩)).2⟩

/-- Claim C6: for every pair of cursor values `head`, `tail` in
`[0, 128)`, `full()` and `empty()` do not both return 1. -/
theorem c6_not_full_and_empty (s : Sys) (_hh : s.head < 128)
    (_ht : s.tail < 128) : ¬ (full s = 1 ∧ empty s = 1) := by
  rintro ⟨hf, he⟩
  have h2 : s.head = s.tail := by
    by_contra h
    simp only [empty, if_neg h] at he
    exact absurd he (by decide)
  have h1 : s.head = (s.tail + 1) % 128 := by
    by_contra h
    simp only [full, NELEMSqueue, if_neg h] at hf
    exact absurd hf (by decide)
  omega

/-- Witness for C6 at concrete cursors `head = 0`, `tail = 0`: the
buffer is empty there, and indeed not both predicates return 1. -/
theorem c6_not_full_and_empty_witness :
    initSys.head < 128 ∧ initSys.tail < 128
    ∧ ¬ (full initSys = 1 ∧ empty initSys = 1) :=
  ⟨by decide, by decide,
    c6_not_full_and_empty initSys (by decide) (by decide)⟩

/-- Closed form of the producer's odometer: the `i`-th enqueued value is
the base-256 digits of `i`, innermost field `b` fastest. -/
lemma produce_eq (i : Nat) :
    produce i = ⟨i / 65536 % 256, i / 256 % 256, i % 256⟩ := by
  induction i with
  | zero => rfl
  | succ n ih =>
    show nextRGB (produce n) = _
    rw [ih]
    simp only [nextRGB, ne_eq]
    split
    · next hb =>
      simp only [RGB.mk.injEq]
      refine ⟨?_, ?_, ?_⟩ <;> omega
    · next hb =>
      simp only [not_not] at hb
      split
      · next hg =>
        simp only [RGB.mk.injEq]
        refine ⟨?_, ?_, ?_⟩ <;> omega
      · next hg =>
        simp only [not_not] at hg
        simp only [RGB.mk.injEq]
        refine ⟨?_, ?_, ?_⟩ <;> omega

/-- Claim C8: the producer enumerates the entire value space of the
record type (all 2^24 RGB triplets) in odometer order: starting from
`(0,0,0)` the innermost field `b` varies fastest, each field wraps to 0
and increments the next field (closed form: the `i`-th enqueued value is
the base-256 digit decomposition of `i`), every triplet is enqueued
exactly once during a pass of 2^24 enqueues (the enumeration is
injective on the pass and reaches every triplet), and the pass ends with
the outermost field `r` wrapping back so that value number 2^24 is
`(0,0,0)` again. -/
theorem c8_producer_odometer :
    produce 0 = ⟨0, 0, 0⟩
    ∧ (∀ i, produce i = ⟨i / 65536 % 256, i / 256 % 256, i % 256⟩)
    ∧ (∀ i j, i < 2 ^ 24 → j < 2 ^ 24 → produce i = produce j → i = j)
    ∧ (∀ v : RGB, v.r < 256 → v.g < 256 → v.b < 256
        → ∃ i, i < 2 ^ 24 ∧ produce i = v)
    ∧ produce (2 ^ 24) = ⟨0, 0, 0⟩ := by
  refine ⟨rfl, produce_eq, ?_, ?_, ?_⟩
  · intro i j hi hj h
    rw [produce_eq i, produce_eq j] at h
    simp only [RGB.mk.injEq] at h
    omega
  · intro v hr hg hb
    refine ⟨v.r * 65536 + v.g * 256 + v.b, by omega, ?_⟩
    rw [produce_eq]
    have h1 : (v.r * 65536 + v.g * 256 + v.b) / 65536 % 256 = v.r := by
      omega
    have h2 : (v.r * 65536 + v.g * 256 + v.b) / 256 % 256 = v.g := by
      omega
    have h3 : (v.r * 65536 + v.g * 256 + v.b) % 256 = v.b := by omega
    rw [h1, h2, h3]
  · rw [produce_eq]
    decide

/-- Witness for C8: the closed form at `i = 300` (an unconditional part
of the theorem) and the existence of a pass index producing `⟨1, 2, 3⟩`,
with the value-space bounds discharged concretely. -/
theorem c8_producer_odometer_witness :
    produce 300 = ⟨300 / 65536 % 256, 300 / 256 % 256, 300 % 256⟩
    ∧ ∃ i, i < 2 ^ 24 ∧ produce i = ⟨1, 2, 3⟩ :=
  ⟨c8_producer_odometer.2.1 300,
    c8_producer_odometer.2.2.2.1 ⟨1, 2, 3⟩ (by decide) (by decide)
      (by decide)⟩
